import Mathlib

/-!
Shallow embedding of the `llm-text-processor` repository (app/llm_service.py,
app/storage.py, app/business_logic.py, app/models.py, app/main.py) and proofs
about its provider-abstraction and reporting logic.

Modelling conventions:
* Python floats are modelled as rationals (`ℚ`); `round(x, n)` is modelled as
  round-half-even at `n` decimal digits, matching Python's rounding of exact
  halves.
* The external backends (the OpenAI client and the Hugging Face pipelines) are
  opaque collaborators; a `Backend` record supplies their responses per input
  text.  For the OpenAI JSON paths the response is given as the outcome of
  `json.loads` (`none` models a `json.JSONDecodeError`).
* Raising Python exceptions is modelled with `Except PyErr` (or `Option` for
  the one reporting function that can raise), and Python dicts are modelled as
  association lists in insertion order, matching CPython dict semantics.
* `datetime` timestamps are modelled as integers (seconds); `timedelta(hours=h)`
  is `h * 3600`.
-/

/- Batteries marks the rational operations irreducible; restore reducibility so
that concrete witnesses can be checked by kernel reduction. -/
attribute [local semireducible] Rat.mul Rat.inv Rat.add Rat.sub

/-! ### Python primitives -/

/-- The whitespace characters recognised by Python's `str.split()`. -/
def pyIsSpace (c : Char) : Bool :=
  c = ' ' ∨ c = '\t' ∨ c = '\n' ∨ c = '\r' ∨ c = '\x0b' ∨ c = '\x0c'

/-- Accumulator-based splitter: `cur` holds the current word reversed. -/
def wordsAux : List Char → List Char → List String
  | [], cur => if cur = [] then [] else [String.mk cur.reverse]
  | c :: cs, cur =>
      if pyIsSpace c then
        if cur = [] then wordsAux cs [] else String.mk cur.reverse :: wordsAux cs []
      else wordsAux cs (c :: cur)

/-- Python `text.split()`: maximal runs of non-whitespace characters. -/
def pySplit (s : String) : List String := wordsAux s.toList []

/-- Floor of a rational (the denominator is positive, so flooring division of
the numerator by the denominator). -/
def ratFloor (q : ℚ) : ℤ := q.num.fdiv q.den

/-- Round to the nearest integer, halves to the even neighbour — Python's
`round` on exact values. -/
def roundHalfEven (q : ℚ) : ℤ :=
  let f := ratFloor q
  let frac := q - (f : ℚ)
  if frac < 1/2 then f
  else if 1/2 < frac then f + 1
  else if f % 2 = 0 then f else f + 1

/-- Python `round(q, 3)`. -/
def round3 (q : ℚ) : ℚ := (roundHalfEven (q * 1000) : ℚ) / 1000

/-- Python `round(q, 2)`. -/
def round2 (q : ℚ) : ℚ := (roundHalfEven (q * 100) : ℚ) / 100

/-- `q` carries at most 3 decimal digits. -/
def isRounded3 (q : ℚ) : Prop := (q * 1000).den = 1

instance (q : ℚ) : Decidable (isRounded3 q) :=
  inferInstanceAs (Decidable ((q * 1000).den = 1))

/-! ### JSON values

The loosely-typed structured values flowing through the service
(`Dict[str, Any]` results, parsed `json.loads` output) are modelled by a small
JSON universe.  Objects are association lists in insertion order. -/

inductive Json where
  | null
  | bool (b : Bool)
  | num (q : ℚ)
  | str (s : String)
  | arr (xs : List Json)
  | obj (kvs : List (String × Json))

mutual

/-- Structural (Python `==`) equality test on JSON values. -/
def Json.beq : Json → Json → Bool
  | .null, .null => true
  | .bool a, .bool b => a == b
  | .num a, .num b => a == b
  | .str a, .str b => a == b
  | .arr xs, .arr ys => Json.beqList xs ys
  | .obj kvs, .obj lws => Json.beqObj kvs lws
  | _, _ => false

/-- Pointwise equality test on JSON arrays. -/
def Json.beqList : List Json → List Json → Bool
  | [], [] => true
  | x :: xs, y :: ys => Json.beq x y && Json.beqList xs ys
  | _, _ => false

/-- Pointwise equality test on JSON objects. -/
def Json.beqObj : List (String × Json) → List (String × Json) → Bool
  | [], [] => true
  | (k, v) :: kvs, (l, w) :: lws => k == l && Json.beq v w && Json.beqObj kvs lws
  | _, _ => false

end

theorem Json.beq_iff : ∀ a b : Json, Json.beq a b = true ↔ a = b := by
  have main : ∀ n : ℕ,
      (∀ a b : Json, sizeOf a ≤ n → (Json.beq a b = true ↔ a = b)) ∧
      (∀ xs ys : List Json, sizeOf xs ≤ n → (Json.beqList xs ys = true ↔ xs = ys)) ∧
      (∀ kvs lws : List (String × Json), sizeOf kvs ≤ n →
        (Json.beqObj kvs lws = true ↔ kvs = lws)) := by
    intro n
    induction n with
    | zero =>
      refine ⟨fun a b h => ?_, fun xs ys h => ?_, fun kvs lws h => ?_⟩
      · cases a <;> simp at h
      · cases xs <;> simp at h
      · cases kvs <;> simp at h
    | succ n ih =>
      obtain ⟨ihJ, ihL, ihO⟩ := ih
      refine ⟨fun a b h => ?_, fun xs ys h => ?_, fun kvs lws h => ?_⟩
      · cases a <;> cases b <;> simp [Json.beq]
        case arr.arr xs ys =>
          exact ihL xs ys (by simp at h; omega)
        case obj.obj kvs lws =>
          exact ihO kvs lws (by simp at h; omega)
      · cases xs <;> cases ys <;> simp [Json.beqList]
        case cons.cons x xs y ys =>
          rw [ihJ x y (by simp at h; omega), ihL xs ys (by simp at h; omega)]
      · cases kvs <;> cases lws <;> simp [Json.beqObj]
        case cons.cons kv kvs lw lws =>
          obtain ⟨k, v⟩ := kv
          obtain ⟨l, w⟩ := lw
          simp only [Json.beqObj, Bool.and_eq_true, beq_iff_eq, Prod.mk.injEq]
          rw [ihJ v w (by simp at h; omega), ihO kvs lws (by simp at h; omega)]
  intro a b
  exact (main (sizeOf a)).1 a b le_rfl

instance : DecidableEq Json := fun a b => decidable_of_iff _ (Json.beq_iff a b)

/-- Field access on a JSON object (`j[k]` / `j.get(k)` when `j` is a dict);
`none` when `j` is not an object or lacks the key. -/
def jsonField (j : Json) (k : String) : Option Json :=
  match j with
  | .obj kvs => kvs.lookup k
  | _ => none

mutual

/-- All numeric values stored under a key named `score` or `confidence`,
anywhere inside a JSON value — the "confidence values" of an entity-extraction
result. -/
def jsonConfValues : Json → List ℚ
  | .arr xs => confValuesArr xs
  | .obj kvs => confValuesObj kvs
  | _ => []

/-- `jsonConfValues` over the elements of an array. -/
def confValuesArr : List Json → List ℚ
  | [] => []
  | x :: xs => jsonConfValues x ++ confValuesArr xs

/-- `jsonConfValues` over the fields of an object. -/
def confValuesObj : List (String × Json) → List ℚ
  | [] => []
  | (k, v) :: kvs =>
      (if k = "score" ∨ k = "confidence" then
        match v with
        | .num q => [q]
        | _ => []
      else []) ++ jsonConfValues v ++ confValuesObj kvs

end

/-! ### Python exceptions -/

inductive PyErr where
  | valueError (msg : String)
  | indexError
  | zeroDivisionError
deriving DecidableEq

/-! ### Text-analysis provider (app/llm_service.py)

`LLMService` fixes one of two provider variants at construction; the three
operations below branch on it.  The `Backend` record supplies the external
collaborators' responses (network calls and local pipelines), per input text:
the fields are exactly the data the Python code reads from those responses. -/

inductive Provider where
  | openai
  | huggingface
deriving DecidableEq

/-- One raw entity mention produced by the Hugging Face NER pipeline; the code
reads the fields `entity`, `word` and `score`. -/
structure HFEntity where
  entity : String
  word : String
  score : ℚ

/-- One item produced by the Hugging Face sentiment pipeline; the code reads
the fields `label` and `score`. -/
structure HFSentiment where
  label : String
  score : ℚ

/-- The responses of the external backends.  For the OpenAI JSON tasks the
field is the outcome of `json.loads` on the response content (`none` is a
`json.JSONDecodeError`); for Hugging Face the fields are the pipeline outputs
(`hfSummarize` lists the `summary_text` of each output item). -/
structure Backend where
  openaiSummarize : String → String
  openaiEntities : String → Option Json
  openaiSentiment : String → Option Json
  hfSummarize : String → List String
  hfNer : String → List HFEntity
  hfSentiment : String → List HFSentiment

/-- The note attached when the input is below the summarization threshold. -/
def summarizeNote : String := "Text too short for meaningful summarization"

/-- `LLMService.summarize_text` (app/llm_service.py lines 81-102). -/
def summarize_text (p : Provider) (b : Backend) (text : String) : Except PyErr Json :=
  if (pySplit text).length < 30 then
    .ok (.obj [("summary", .str text), ("note", .str summarizeNote)])
  else
    match p with
    | .openai => .ok (.obj [("summary", .str (b.openaiSummarize text).trim)])
    | .huggingface =>
      match b.hfSummarize text with
      | [] => .error .indexError
      | s :: _ => .ok (.obj [("summary", .str s)])

/-- An entity mention as stored in the grouped Hugging Face result. -/
structure Mention where
  word : String
  score : ℚ
deriving DecidableEq

/-- One step of the grouping loop: append mention `m` to the bucket of type
`t`, creating the bucket if it is absent (Python dict insertion order). -/
def addMention (g : List (String × List Mention)) (t : String) (m : Mention) :
    List (String × List Mention) :=
  if g.any (fun p => p.1 = t) then
    g.map (fun p => if p.1 = t then (p.1, p.2 ++ [m]) else p)
  else g ++ [(t, [m])]

/-- The grouping loop of the Hugging Face branch of `extract_entities`: group
raw mentions by `entity` type, rounding each score to 3 digits. -/
def groupEntities (ents : List HFEntity) : List (String × List Mention) :=
  ents.foldl (fun g e => addMention g e.entity ⟨e.word, round3 e.score⟩) []

/-- JSON encoding of one grouped mention. -/
def mentionJson (m : Mention) : Json :=
  .obj [("word", .str m.word), ("score", .num m.score)]

/-- JSON encoding of a grouped-entities mapping. -/
def groupedJson (g : List (String × List Mention)) : Json :=
  .obj (g.map (fun p => (p.1, Json.arr (p.2.map mentionJson))))

/-- The error annotation of `extract_entities` on a JSON parse failure. -/
def entitiesParseError : String := "Failed to parse entity extraction result"

/-- `LLMService.extract_entities` (app/llm_service.py lines 104-140). -/
def extract_entities (p : Provider) (b : Backend) (text : String) : Except PyErr Json :=
  match p with
  | .openai =>
    match b.openaiEntities text with
    | some j => .ok (.obj [("entities", j)])
    | none => .ok (.obj [("entities", .obj []), ("error", .str entitiesParseError)])
  | .huggingface =>
    .ok (.obj [("entities", groupedJson (groupEntities (b.hfNer text)))])

/-- The fallback result of `analyze_sentiment` on a JSON parse failure. -/
def sentimentFallback : Json :=
  .obj [("sentiment", .str "NEUTRAL"), ("score", .num (1/2)),
        ("error", .str "Failed to parse sentiment analysis result")]

/-- `LLMService.analyze_sentiment` (app/llm_service.py lines 142-168).  On the
OpenAI variant, successfully decoded JSON is returned as parsed; only a decode
failure triggers the fallback. -/
def analyze_sentiment (p : Provider) (b : Backend) (text : String) : Except PyErr Json :=
  match p with
  | .openai =>
    match b.openaiSentiment text with
    | some j => .ok j
    | none => .ok sentimentFallback
  | .huggingface =>
    match b.hfSentiment text with
    | [] => .error .indexError
    | s :: _ => .ok (.obj [("sentiment", .str s.label), ("score", .num (round3 s.score))])

/-- `LLMService.process_text` (app/llm_service.py lines 170-181): dispatch on
the task name; an unrecognised task raises `ValueError`. -/
def process_text (p : Provider) (b : Backend) (text : String) (task : String) :
    Except PyErr Json :=
  if task = "summarize" then summarize_text p b text
  else if task = "entities" then extract_entities p b text
  else if task = "sentiment" then analyze_sentiment p b text
  else .error (.valueError ("Unsupported task: " ++ task))

/-! ### Result store (app/storage.py) -/

/-- A stored processed-text record (the dict built by `save_result`;
`created_at` in seconds). -/
structure Record where
  id : String
  original_text : String
  processed_result : Json
  task_type : String
  created_at : Int
deriving DecidableEq

/-- `InMemoryStorage`: the `results` dict as an association list in insertion
order (CPython dicts preserve insertion order). -/
structure InMemoryStorage where
  results : List (String × Record)
deriving DecidableEq

/-- Python dict assignment `m[k] = v`: replace in place when the key exists,
else append. -/
def dictInsert (m : List (String × Record)) (k : String) (v : Record) :
    List (String × Record) :=
  if m.any (fun p => p.1 = k) then
    m.map (fun p => if p.1 = k then (p.1, v) else p)
  else m ++ [(k, v)]

/-- `InMemoryStorage.save_result` (app/storage.py lines 10-24).  The generated
`uuid4` id and `datetime.now()` timestamp are external inputs here. -/
def save_result (st : InMemoryStorage) (original_text : String) (processed_result : Json)
    (task_type : String) (result_id : String) (now : Int) : Record × InMemoryStorage :=
  let result : Record :=
    { id := result_id, original_text := original_text,
      processed_result := processed_result, task_type := task_type, created_at := now }
  (result, ⟨dictInsert st.results result_id result⟩)

/-- `InMemoryStorage.get_all_results`: the values in insertion order. -/
def get_all_results (st : InMemoryStorage) : List Record :=
  st.results.map Prod.snd

/-- `InMemoryStorage.get_result_by_id`: point lookup, `none` when absent. -/
def get_result_by_id (st : InMemoryStorage) (result_id : String) : Option Record :=
  st.results.lookup result_id

/-! ### Reporting engine (app/business_logic.py) -/

/-- Python counting-dict update (`if k not in d: d[k] = 0; d[k] += 1`). -/
def pyCount {α : Type} [DecidableEq α] (d : List (α × Nat)) (k : α) : List (α × Nat) :=
  if d.any (fun p => p.1 = k) then
    d.map (fun p => if p.1 = k then (p.1, p.2 + 1) else p)
  else d ++ [(k, 1)]

/-- Python `/` on numbers: raises `ZeroDivisionError` on a zero divisor. -/
def pyDiv (a b : ℚ) : Except PyErr ℚ :=
  if b = 0 then .error .zeroDivisionError else .ok (a / b)

/-- The dict returned by `get_processing_stats`. -/
structure Stats where
  total_processed : Nat
  by_task_type : List (String × Nat)
  average_text_length : ℚ
deriving DecidableEq

/-- `BusinessLogic.get_processing_stats` (app/business_logic.py lines 9-31).
The division by `len(results)` is guarded by the non-emptiness test
`if results:` in the source; on the empty store the average is the literal 0. -/
def get_processing_stats (st : InMemoryStorage) : Except PyErr Stats :=
  match (if get_all_results st ≠ [] then
          pyDiv (((get_all_results st).map (fun r => (r.original_text.length : ℚ))).sum)
            ((get_all_results st).length : ℚ)
        else .ok 0) with
  | .error e => .error e
  | .ok avg =>
    .ok { total_processed := (get_all_results st).length,
          by_task_type :=
            (get_all_results st).foldl (fun d r => pyCount d r.task_type)
              ([] : List (String × Nat)),
          average_text_length := round2 avg }

/-- `BusinessLogic.get_recent_activity` (app/business_logic.py lines 33-43):
keep the records strictly newer than `now - hours`, in store order.  The
source's `isinstance(r["created_at"], datetime)` guard is vacuous here since
every embedded record carries a timestamp. -/
def get_recent_activity (st : InMemoryStorage) (now : Int) (hours : Int) : List Record :=
  let results := get_all_results st
  let cutoff_time := now - hours * 3600
  results.filter (fun r => cutoff_time < r.created_at)

/-- The sentiment bucket of one record's `processed_result` dict:
`result["processed_result"].get("sentiment", "UNKNOWN")`.  The default is used
only when the key is absent; a present value (even `""` or `null`) is the
bucket itself. -/
def bucketOf (kvs : List (String × Json)) : Json :=
  match kvs.lookup "sentiment" with
  | some v => v
  | none => .str "UNKNOWN"

/-- Whether a JSON value is hashable as a Python dict key: scalars are,
lists and dicts are not (`hash(k)` raises `TypeError` on them). -/
def pyHashable : Json → Bool
  | .arr _ => false
  | .obj _ => false
  | _ => true

/-- Canonical form of a hashable value under Python `==`/`hash`: the booleans
coincide with the numbers 1 and 0 (`True == 1`, `False == 0`, and they share a
hash), while `None`, numbers and strings only equal themselves. -/
def pyKeyNorm : Json → Json
  | .bool b => .num (if b then 1 else 0)
  | j => j

/-- Python `==` as used on dict keys, restricted to hashable values: both
operands hashable and equal after normalisation. -/
def pyEqKey (a b : Json) : Bool :=
  pyHashable a && pyHashable b && (pyKeyNorm a == pyKeyNorm b)

/-- One iteration of the distribution loop on label `k`:
`if k not in distribution: distribution[k] = 0` then `distribution[k] += 1`.
Membership and indexing hash the label first, so an unhashable label (a list
or dict) raises `TypeError` (`none`); an existing entry keeps its original
stored key, compared by Python `==`. -/
def distCount (d : List (Json × Nat)) (k : Json) : Option (List (Json × Nat)) :=
  if pyHashable k then
    some (if d.any (fun p => pyEqKey p.1 k) then
            d.map (fun p => if pyEqKey p.1 k then (p.1, p.2 + 1) else p)
          else d ++ [(k, 1)])
  else none

/-- The counting loop of `get_sentiment_distribution`; `none` models the
exceptions Python raises inside it: `AttributeError` when a
`processed_result` is not a dict, and `TypeError` when a present sentiment
label is unhashable. -/
def sentimentDistAux : List (Json × Nat) → List Record → Option (List (Json × Nat))
  | d, [] => some d
  | d, r :: rs =>
    match r.processed_result with
    | .obj kvs =>
      match distCount d (bucketOf kvs) with
      | some d2 => sentimentDistAux d2 rs
      | none => none
    | _ => none

/-- `BusinessLogic.get_sentiment_distribution` (app/business_logic.py lines
45-60): restrict to `task_type == "sentiment"` records, then count by
sentiment label. -/
def get_sentiment_distribution (st : InMemoryStorage) : Option (List (Json × Nat)) :=
  sentimentDistAux [] ((get_all_results st).filter (fun r => r.task_type = "sentiment"))

/-! ### Request gateway (app/main.py) -/

/-- The two failure shapes of the `/process` handler: a pydantic request
validation failure (HTTP 422, raised before the handler body runs) and an
`HTTPException` (every exception inside the handler body, the in-handler
`HTTPException(400)` for a bad task name included, is re-raised as a 500). -/
inductive HandlerErr where
  | validationError (detail : String)
  | httpError (status : Nat) (detail : String)
deriving DecidableEq

/-- `str(e)` for the embedded Python exceptions. -/
def pyErrMsg : PyErr → String
  | .valueError m => m
  | .indexError => "list index out of range"
  | .zeroDivisionError => "division by zero"

/-- The task names accepted by the `/process` handler. -/
def validTasks : List String := ["summarize", "entities", "sentiment"]

/-- The pydantic error detail for `TextRequest.text` with `min_length=1`
(app/models.py lines 5-6). -/
def emptyTextDetail : String := "String should have at least 1 character"

/-- The `/process` handler (app/main.py lines 76-109): validate the request
body (`TextRequest` rejects empty text before the body runs), validate the
task name, call the provider, and only then save.  The result is the handler
response paired with the store as left after the call. -/
def handleProcess (st : InMemoryStorage) (p : Provider) (b : Backend)
    (text task result_id : String) (now : Int) :
    Except HandlerErr Record × InMemoryStorage :=
  if text.length < 1 then
    (.error (.validationError emptyTextDetail), st)
  else if task ∉ validTasks then
    (.error (.httpError 500 ("Error processing text: 400: Invalid task: " ++ task ++
      ". Must be one of: summarize, entities, sentiment")), st)
  else
    match process_text p b text task with
    | .error e => (.error (.httpError 500 ("Error processing text: " ++ pyErrMsg e)), st)
    | .ok j =>
      let rs := save_result st text j task result_id now
      (.ok rs.1, rs.2)

/-! ### Spec-side notions and concrete fixtures -/

/-- Whether a JSON value has the result shape §4.2 expects of a sentiment
result: an object with a `sentiment` label among POSITIVE/NEGATIVE/NEUTRAL and
a numeric `score` in [0, 1]. -/
def expectedSentimentShape (j : Json) : Bool :=
  match j with
  | .obj kvs =>
    (match kvs.lookup "sentiment" with
     | some (.str s) => s = "POSITIVE" ∨ s = "NEGATIVE" ∨ s = "NEUTRAL"
     | _ => false)
    && (match kvs.lookup "score" with
        | some (.num q) => decide (0 ≤ q ∧ q ≤ 1)
        | _ => false)
  | _ => false

/-- The sentiment bucket a record falls into: `some` of the bucket when its
`processed_result` is a dict, `none` otherwise (where the code would raise). -/
def recBucket (r : Record) : Option Json :=
  match r.processed_result with
  | .obj kvs => some (bucketOf kvs)
  | _ => none

/-- The count a counting dict holds under key `k` (Python `d.get(k, 0)`,
which compares keys by Python `==`). -/
def countIn (d : List (Json × Nat)) (k : Json) : Nat :=
  ((d.find? (fun p => pyEqKey p.1 k)).map Prod.snd).getD 0

/-- Whether a record's sentiment label can serve as a dict key: its
`processed_result` is a dict and the looked-up label (or the `UNKNOWN`
default) is hashable. -/
def hashableBucket (r : Record) : Bool :=
  match recBucket r with
  | some k => pyHashable k
  | none => false

/-- Whether a record's bucket equals (Python `==`) the key `k`. -/
def bucketMatches (r : Record) (k : Json) : Bool :=
  match recBucket r with
  | some b => pyEqKey b k
  | none => false

/-- A backend whose responses are all empty or unparseable; in particular its
OpenAI JSON responses fail to decode. -/
def emptyBackend : Backend :=
  ⟨fun _ => "", fun _ => none, fun _ => none, fun _ => [], fun _ => [], fun _ => []⟩

/-- A backend whose OpenAI sentiment response decodes to the JSON array `[]` —
valid JSON without the expected sentiment shape. -/
def arrSentimentBackend : Backend :=
  ⟨fun _ => "", fun _ => none, fun _ => some (.arr []), fun _ => [], fun _ => [], fun _ => []⟩

/-- An entity mapping as an OpenAI backend could return it: well-formed, but
with a confidence that does not fit in 3 decimal digits. -/
def unroundedEntitiesJson : Json :=
  .obj [("PERSON", .arr [.obj [("text", .str "Bob"), ("confidence", .num (1/3))]])]

/-- A backend whose OpenAI entities response decodes to
`unroundedEntitiesJson`. -/
def unroundedEntitiesBackend : Backend :=
  ⟨fun _ => "", fun _ => some unroundedEntitiesJson, fun _ => none,
   fun _ => [], fun _ => [], fun _ => []⟩

/-- A backend whose NER pipeline yields three mentions of two types. -/
def nerBackend : Backend :=
  ⟨fun _ => "", fun _ => none, fun _ => none, fun _ => [],
   fun _ => [⟨"PER", "Bob", 1/3⟩, ⟨"LOC", "Paris", 9/8⟩, ⟨"PER", "Ann", 1/2⟩],
   fun _ => []⟩

/-- A one-record store: a sentiment record whose result has the label `""`. -/
def emptyLabelStore : InMemoryStorage :=
  ⟨[("id1", ⟨"id1", "meh", .obj [("sentiment", .str "")], "sentiment", 0⟩)]⟩

/-- A two-record store: a sentiment record without a `sentiment` key and one
labelled POSITIVE. -/
def mixedSentimentStore : InMemoryStorage :=
  ⟨[("id1", ⟨"id1", "meh", .obj [("note", .str "x")], "sentiment", 0⟩),
    ("id2", ⟨"id2", "yay", .obj [("sentiment", .str "POSITIVE")], "sentiment", 1⟩)]⟩

/-- A one-record store: a sentiment record whose label decoded to the JSON
array `[]` — an unhashable Python value, reachable through the openai
sentiment passthrough. -/
def unhashableLabelStore : InMemoryStorage :=
  ⟨[("id1", ⟨"id1", "meh", .obj [("sentiment", .arr [])], "sentiment", 0⟩)]⟩

/-- A one-record store whose record was created at time 5. -/
def oneRecordStore : InMemoryStorage :=
  ⟨[("a", ⟨"a", "hi", .obj [], "summarize", 5⟩)]⟩

/-! ### Helper lemmas: rounding -/

theorem isRounded3_round3 (q : ℚ) : isRounded3 (round3 q) := by
  unfold isRounded3 round3
  rw [div_mul_cancel₀]
  · exact Rat.den_intCast _
  · norm_num

/-! ### Helper lemmas: association lists -/

theorem lookup_append_of_none {α : Type} {β : Type} [BEq α] (l₁ l₂ : List (α × β)) (k : α)
    (h : l₁.lookup k = none) : (l₁ ++ l₂).lookup k = l₂.lookup k := by
  induction l₁ with
  | nil => simp
  | cons p l ih =>
    obtain ⟨a, b⟩ := p
    rw [List.cons_append, List.lookup_cons]
    rw [List.lookup_cons] at h
    cases hak : (k == a) with
    | true => rw [hak] at h; simp at h
    | false => rw [hak] at h; exact ih h

theorem lookup_append_of_some {α : Type} {β : Type} [BEq α] (l₁ l₂ : List (α × β)) (k : α)
    (v : β) (h : l₁.lookup k = some v) : (l₁ ++ l₂).lookup k = some v := by
  induction l₁ with
  | nil => simp at h
  | cons p l ih =>
    obtain ⟨a, b⟩ := p
    rw [List.cons_append, List.lookup_cons]
    rw [List.lookup_cons] at h
    cases hak : (k == a) with
    | true => rw [hak] at h; exact h
    | false => rw [hak] at h; exact ih h

theorem lookup_eq_none_of_no_key {α : Type} {β : Type} [BEq α] [LawfulBEq α]
    (l : List (α × β)) (k : α) (h : ∀ p ∈ l, ¬ p.1 = k) : l.lookup k = none := by
  induction l with
  | nil => simp
  | cons p l ih =>
    obtain ⟨a, b⟩ := p
    rw [List.lookup_cons]
    have ha : ¬ a = k := h (a, b) (List.mem_cons_self _ _)
    have : (k == a) = false := by simp; exact fun e => ha e.symm
    rw [this]
    exact ih fun q hq => h q (List.mem_cons_of_mem _ hq)

theorem lookup_isSome_of_key {α : Type} {β : Type} [BEq α] [LawfulBEq α]
    (l : List (α × β)) (k : α) (h : ∃ p ∈ l, p.1 = k) : ∃ v, l.lookup k = some v := by
  induction l with
  | nil => simp at h
  | cons p l ih =>
    obtain ⟨a, b⟩ := p
    rw [List.lookup_cons]
    by_cases hak : k = a
    · subst hak; simp
    · have : (k == a) = false := by simp [hak]
      rw [this]
      apply ih
      obtain ⟨q, hq, hqk⟩ := h
      rcases List.mem_cons.mp hq with h1 | h1
      · exact absurd (by rw [h1] at hqk; exact hqk.symm) hak
      · exact ⟨q, h1, hqk⟩

/-! ### Helper lemmas: entity grouping -/

theorem lookup_addMention_map (g : List (String × List Mention)) (t u : String) (m : Mention) :
    ((g.map (fun p => if p.1 = t then (p.1, p.2 ++ [m]) else p)).lookup u) =
      (g.lookup u).map (fun v => if u = t then v ++ [m] else v) := by
  induction g with
  | nil => simp
  | cons p g ih =>
    obtain ⟨a, v⟩ := p
    simp only [List.map_cons]
    by_cases hat : a = t
    · subst hat
      by_cases hua : u = a
      · subst hua
        simp [List.lookup_cons]
      · have h1 : (u == a) = false := by simp [hua]
        simp [List.lookup_cons, h1, ih, hua]
    · rw [if_neg hat]
      by_cases hua : u = a
      · subst hua
        have h2 : ¬ (u = t) := hat
        have h1 : (u == u) = true := by simp
        simp [List.lookup_cons, h1, h2]
      · have h1 : (u == a) = false := by simp [hua]
        simp [List.lookup_cons, h1, ih]

theorem lookup_addMention (g : List (String × List Mention)) (t : String) (m : Mention)
    (u : String) :
    ((addMention g t m).lookup u).getD [] =
      ((g.lookup u).getD []) ++ (if u = t then [m] else []) := by
  unfold addMention
  by_cases hany : g.any (fun p => p.1 = t)
  · rw [if_pos hany, lookup_addMention_map]
    cases hg : g.lookup u with
    | some v => by_cases hut : u = t <;> simp [hut]
    | none =>
      by_cases hut : u = t
      · subst hut
        have hex : ∃ p ∈ g, p.1 = u := by
          rw [List.any_eq_true] at hany
          obtain ⟨p, hp, hd⟩ := hany
          exact ⟨p, hp, by simpa using hd⟩
        obtain ⟨v, hv⟩ := lookup_isSome_of_key g u hex
        rw [hv] at hg
        cases hg
      · simp [hut]
  · rw [if_neg hany]
    by_cases hut : u = t
    · subst hut
      have hno : ∀ p ∈ g, ¬ p.1 = u := by
        intro p hp hpk
        exact hany (List.any_eq_true.mpr ⟨p, hp, by simpa using hpk⟩)
      have hnone : g.lookup u = none := lookup_eq_none_of_no_key g u hno
      rw [lookup_append_of_none _ _ _ hnone, hnone]
      simp [List.lookup_cons]
    · cases hg : g.lookup u with
      | some v => rw [lookup_append_of_some _ _ _ _ hg]; simp [hut]
      | none =>
        rw [lookup_append_of_none _ _ _ hg]
        have hbf : (u == t) = false := by simp [hut]
        simp [List.lookup_cons, hbf, hut]

theorem lookup_groupEntities_aux (ents : List HFEntity) :
    ∀ (g : List (String × List Mention)) (t : String),
      (((ents.foldl (fun g e => addMention g e.entity ⟨e.word, round3 e.score⟩) g).lookup t).getD [])
        = ((g.lookup t).getD []) ++
            (ents.filter (fun e => e.entity = t)).map (fun e => ⟨e.word, round3 e.score⟩) := by
  induction ents with
  | nil => intro g t; simp
  | cons e ents ih =>
    intro g t
    rw [List.foldl_cons, ih, lookup_addMention]
    by_cases het : e.entity = t
    · rw [if_pos het.symm]
      have hd : decide (e.entity = t) = true := by simp [het]
      simp [List.filter_cons, hd]
    · rw [if_neg (fun h => het h.symm)]
      have hd : decide (e.entity = t) = false := by simp [het]
      simp [List.filter_cons, hd]

theorem lookup_groupEntities (ents : List HFEntity) (t : String) :
    ((groupEntities ents).lookup t).getD [] =
      (ents.filter (fun e => e.entity = t)).map (fun e => ⟨e.word, round3 e.score⟩) := by
  unfold groupEntities
  rw [lookup_groupEntities_aux]
  simp

theorem addMention_scores_rounded (g : List (String × List Mention)) (t : String)
    (m : Mention) (hm : isRounded3 m.score)
    (hg : ∀ p ∈ g, ∀ m2 ∈ p.2, isRounded3 m2.score) :
    ∀ p ∈ addMention g t m, ∀ m2 ∈ p.2, isRounded3 m2.score := by
  intro p hp m2 hm2
  unfold addMention at hp
  by_cases hany : g.any (fun p => p.1 = t)
  · rw [if_pos hany] at hp
    obtain ⟨q, hq, hqp⟩ := List.mem_map.mp hp
    by_cases hqt : q.1 = t
    · rw [if_pos hqt] at hqp
      rw [← hqp] at hm2
      rcases List.mem_append.mp hm2 with h1 | h1
      · exact hg q hq m2 h1
      · rw [List.mem_singleton.mp h1]; exact hm
    · rw [if_neg hqt] at hqp
      rw [← hqp] at hm2
      exact hg q hq m2 hm2
  · rw [if_neg hany] at hp
    rcases List.mem_append.mp hp with h1 | h1
    · exact hg p h1 m2 hm2
    · rw [List.mem_singleton.mp h1] at hm2
      rw [List.mem_singleton.mp hm2]
      exact hm

theorem groupEntities_scores_rounded (ents : List HFEntity) :
    ∀ p ∈ groupEntities ents, ∀ m ∈ p.2, isRounded3 m.score := by
  unfold groupEntities
  suffices h : ∀ (g : List (String × List Mention)),
      (∀ p ∈ g, ∀ m ∈ p.2, isRounded3 m.score) →
      ∀ p ∈ ents.foldl (fun g e => addMention g e.entity ⟨e.word, round3 e.score⟩) g,
        ∀ m ∈ p.2, isRounded3 m.score by
    exact h [] (by simp)
  induction ents with
  | nil => intro g hg; simpa using hg
  | cons e ents ih =>
    intro g hg
    rw [List.foldl_cons]
    exact ih _ (addMention_scores_rounded g e.entity _ (isRounded3_round3 _) hg)

theorem confValues_mentionJson (m : Mention) : jsonConfValues (mentionJson m) = [m.score] := by
  simp [mentionJson, jsonConfValues, confValuesObj]

theorem confValues_mentions (ms : List Mention) :
    confValuesArr (ms.map mentionJson) = ms.map Mention.score := by
  induction ms with
  | nil => simp [confValuesArr]
  | cons m ms ih => simp [confValuesArr, confValues_mentionJson, ih]

theorem confValues_groupedJson (g : List (String × List Mention)) :
    jsonConfValues (groupedJson g) = (g.map (fun p => p.2.map Mention.score)).flatten := by
  unfold groupedJson
  induction g with
  | nil => simp [jsonConfValues, confValuesObj]
  | cons p g ih =>
    obtain ⟨t, ms⟩ := p
    by_cases ht : t = "score" ∨ t = "confidence" <;>
      simp [jsonConfValues, confValuesObj, ht, confValues_mentions] <;>
      simpa [jsonConfValues] using ih

/-! ### Helper lemmas: the store -/

theorem lookup_map_overwrite (m : List (String × Record)) (k : String) (v : Record) :
    (m.map (fun p => if p.1 = k then (p.1, v) else p)).lookup k =
      if m.any (fun p => p.1 = k) then some v else none := by
  induction m with
  | nil => simp
  | cons p l ih =>
    obtain ⟨a, b⟩ := p
    by_cases hak : a = k
    · subst hak
      simp [List.lookup_cons]
    · have hka : (k == a) = false := by simp; exact fun e => hak e.symm
      have hd : decide (a = k) = false := by simp [hak]
      simp [List.lookup_cons, hak, hka, ih]
      rw [hd, Bool.false_or]

theorem lookup_dictInsert (m : List (String × Record)) (k : String) (v : Record) :
    (dictInsert m k v).lookup k = some v := by
  unfold dictInsert
  by_cases hany : m.any (fun p => p.1 = k)
  · rw [if_pos hany, lookup_map_overwrite, if_pos hany]
  · rw [if_neg hany]
    have hno : ∀ p ∈ m, ¬ p.1 = k := by
      intro p hp hpk
      exact hany (List.any_eq_true.mpr ⟨p, hp, by simpa using hpk⟩)
    have hnone : m.lookup k = none := lookup_eq_none_of_no_key m k hno
    rw [lookup_append_of_none _ _ _ hnone]
    simp [List.lookup_cons]

/-! ### Helper lemmas: sentiment distribution -/

theorem pyEqKey_iff (a b : Json) :
    pyEqKey a b = true ↔
      pyHashable a = true ∧ pyHashable b = true ∧ pyKeyNorm a = pyKeyNorm b := by
  simp [pyEqKey, and_assoc]

theorem pyEqKey_symm (a b : Json) : pyEqKey a b = pyEqKey b a := by
  cases hab : pyEqKey a b with
  | true =>
    obtain ⟨h1, h2, h3⟩ := (pyEqKey_iff a b).mp hab
    exact ((pyEqKey_iff b a).mpr ⟨h2, h1, h3.symm⟩).symm
  | false =>
    cases hba : pyEqKey b a with
    | false => rfl
    | true =>
      obtain ⟨h1, h2, h3⟩ := (pyEqKey_iff b a).mp hba
      rw [(pyEqKey_iff a b).mpr ⟨h2, h1, h3.symm⟩] at hab
      cases hab

theorem pyEqKey_trans (a b c : Json) (h1 : pyEqKey a b = true) (h2 : pyEqKey b c = true) :
    pyEqKey a c = true := by
  rw [pyEqKey_iff] at h1 h2 ⊢
  exact ⟨h1.1, h2.2.1, h1.2.2.trans h2.2.2⟩

theorem pyEqKey_congr (e u k : Json) (heu : pyEqKey e u = true) :
    pyEqKey e k = pyEqKey k u := by
  cases hku : pyEqKey k u with
  | true =>
    have huk : pyEqKey u k = true := by rw [pyEqKey_symm]; exact hku
    exact pyEqKey_trans e u k heu huk
  | false =>
    cases hek : pyEqKey e k with
    | false => rfl
    | true =>
      have hke : pyEqKey k e = true := by rw [pyEqKey_symm]; exact hek
      have : pyEqKey k u = true := pyEqKey_trans k e u hke heu
      rw [hku] at this
      cases this

theorem find?_bump_map (d : List (Json × Nat)) (k u : Json) :
    ((d.map (fun p => if pyEqKey p.1 k then (p.1, p.2 + 1) else p)).find?
        (fun p => pyEqKey p.1 u)) =
      (d.find? (fun p => pyEqKey p.1 u)).map
        (fun p => if pyEqKey p.1 k then (p.1, p.2 + 1) else p) := by
  have hpf : ((fun p : Json × Nat => pyEqKey p.1 u) ∘
      (fun p : Json × Nat => if pyEqKey p.1 k then (p.1, p.2 + 1) else p)) =
      (fun p : Json × Nat => pyEqKey p.1 u) := by
    funext x
    by_cases hx : pyEqKey x.1 k <;> simp [hx]
  rw [List.find?_map, hpf]

theorem countIn_distCount (d : List (Json × Nat)) (k : Json) (hk : pyHashable k = true) :
    ∃ d2, distCount d k = some d2 ∧
      ∀ u, countIn d2 u = countIn d u + (if pyEqKey k u then 1 else 0) := by
  unfold distCount
  rw [if_pos hk]
  by_cases hany : d.any (fun p => pyEqKey p.1 k)
  · rw [if_pos hany]
    refine ⟨_, rfl, fun u => ?_⟩
    unfold countIn
    rw [find?_bump_map]
    cases hf : d.find? (fun p => pyEqKey p.1 u) with
    | some e =>
      have he : pyEqKey e.1 u = true := by
        have h2 := List.find?_some hf
        simpa using h2
      have hco : pyEqKey e.1 k = pyEqKey k u := pyEqKey_congr e.1 u k he
      by_cases hku : pyEqKey k u
      · rw [hku] at hco
        simp [hco, hku]
      · rw [Bool.not_eq_true] at hku
        rw [hku] at hco
        simp [hco, hku]
    | none =>
      by_cases hku : pyEqKey k u
      · exfalso
        rw [List.any_eq_true] at hany
        obtain ⟨p, hp, hpk⟩ := hany
        have hpu : pyEqKey p.1 u = true := pyEqKey_trans p.1 k u hpk hku
        have hs : (d.find? (fun p => pyEqKey p.1 u)).isSome :=
          List.find?_isSome.mpr ⟨p, hp, hpu⟩
        rw [hf] at hs
        cases hs
      · simp [hku]
  · rw [if_neg hany]
    refine ⟨_, rfl, fun u => ?_⟩
    unfold countIn
    rw [List.find?_append]
    by_cases hku : pyEqKey k u
    · have hnone : d.find? (fun p => pyEqKey p.1 u) = none := by
        rw [List.find?_eq_none]
        intro p hp hpu
        have huk : pyEqKey u k = true := by rw [pyEqKey_symm]; exact hku
        exact hany (List.any_eq_true.mpr ⟨p, hp, pyEqKey_trans p.1 u k hpu huk⟩)
      rw [hnone]
      simp [hku]
    · cases hf : d.find? (fun p => pyEqKey p.1 u) with
      | some e => simp [hf, hku]
      | none => simp [hf, hku]

theorem sentimentDistAux_spec (rs : List Record) :
    ∀ d : List (Json × Nat), (∀ r ∈ rs, hashableBucket r = true) →
      ∃ d2, sentimentDistAux d rs = some d2 ∧
        ∀ k, countIn d2 k =
          countIn d k + (rs.filter (fun r => bucketMatches r k)).length := by
  induction rs with
  | nil => intro d _; exact ⟨d, rfl, fun k => by simp⟩
  | cons r rs ih =>
    intro d hgood
    have hr : hashableBucket r = true := hgood r (List.mem_cons_self _ _)
    match hpr : r.processed_result with
    | .null | .bool _ | .num _ | .str _ | .arr _ =>
      exfalso
      rw [hashableBucket, recBucket, hpr] at hr
      simp at hr
    | .obj kvs =>
      have hk : pyHashable (bucketOf kvs) = true := by
        rw [hashableBucket, recBucket, hpr] at hr
        exact hr
      obtain ⟨d1, hd1, hc1⟩ := countIn_distCount d (bucketOf kvs) hk
      obtain ⟨d2, hd2, hc2⟩ := ih d1 (fun q hq => hgood q (List.mem_cons_of_mem _ hq))
      refine ⟨d2, ?_, ?_⟩
      · rw [sentimentDistAux, hpr]
        simp only [hd1]
        exact hd2
      · intro k
        rw [hc2 k, hc1 k, List.filter_cons]
        have hbm : bucketMatches r k = pyEqKey (bucketOf kvs) k := by
          rw [bucketMatches, recBucket, hpr]
        rw [hbm]
        by_cases hek : pyEqKey (bucketOf kvs) k
        · rw [if_pos hek, hek]
          simp
          omega
        · rw [Bool.not_eq_true] at hek
          rw [hek]
          simp

theorem sentimentDistAux_none (rs : List Record) :
    ∀ d : List (Json × Nat), (∃ r ∈ rs, hashableBucket r = false) →
      sentimentDistAux d rs = none := by
  induction rs with
  | nil =>
    intro d h
    obtain ⟨r, hr, _⟩ := h
    simp at hr
  | cons r rs ih =>
    intro d hbad
    match hpr : r.processed_result with
    | .null | .bool _ | .num _ | .str _ | .arr _ =>
      rw [sentimentDistAux, hpr]
    | .obj kvs =>
      by_cases hk : pyHashable (bucketOf kvs) = true
      · obtain ⟨d1, hd1, _⟩ := countIn_distCount d (bucketOf kvs) hk
        rw [sentimentDistAux, hpr]
        simp only [hd1]
        apply ih
        obtain ⟨r0, hr0, hbad0⟩ := hbad
        rcases List.mem_cons.mp hr0 with h1 | h1
        · exfalso
          rw [h1, hashableBucket, recBucket, hpr] at hbad0
          simp [hk] at hbad0
        · exact ⟨r0, h1, hbad0⟩
      · have hkf : pyHashable (bucketOf kvs) = false := by
          cases hv : pyHashable (bucketOf kvs) with
          | false => rfl
          | true => exact absurd hv hk
        have hdc : distCount d (bucketOf kvs) = none := by
          unfold distCount
          rw [hkf]
          rfl
        rw [sentimentDistAux, hpr]
        simp only [hdc]

/-! ### Claim theorems -/

/-- C3: for every provider variant and every text whose whitespace-separated
word count is strictly below 30, `summarize_text` bypasses the backend and
returns the original text unchanged as the summary, together with an
explanatory note field. -/
theorem summarize_short_text_bypass (p : Provider) (b : Backend) (text : String)
    (h : (pySplit text).length < 30) :
    summarize_text p b text =
      .ok (.obj [("summary", .str text), ("note", .str summarizeNote)]) := by
  unfold summarize_text
  rw [if_pos h]

/-- C3 witness: a 2-word text is returned unchanged with the note, here on the
openai variant with a backend that answers nothing useful. -/
theorem summarize_short_text_bypass_witness :
    summarize_text .openai emptyBackend "hello world" =
      .ok (.obj [("summary", .str "hello world"), ("note", .str summarizeNote)]) :=
  summarize_short_text_bypass .openai emptyBackend "hello world" (by decide)

/-- C5: for every accepted task, a request with empty text fails pydantic
validation (`TextRequest` has `min_length=1`) before the handler body runs:
the call fails synchronously and the store is unchanged — no result. -/
theorem process_empty_text_rejected (st : InMemoryStorage) (p : Provider) (b : Backend)
    (task result_id : String) (now : Int) (h : task ∈ validTasks) :
    handleProcess st p b "" task result_id now =
      (.error (.validationError emptyTextDetail), st) := by
  unfold handleProcess
  rw [if_pos (by decide : ("" : String).length < 1)]

/-- C5 witness: the empty text is rejected on the summarize task against the
empty store. -/
theorem process_empty_text_rejected_witness :
    handleProcess ⟨[]⟩ .openai emptyBackend "" "summarize" "id1" 0 =
      (.error (.validationError emptyTextDetail), ⟨[]⟩) :=
  process_empty_text_rejected ⟨[]⟩ .openai emptyBackend "summarize" "id1" 0 (by decide)

/-- C7: `get_processing_stats` on the empty store returns zero totals and a
zero average, and it never raises on any store: the division is reached only
when the store is non-empty, where the divisor is non-zero. -/
theorem processing_stats_empty_safe :
    get_processing_stats ⟨[]⟩ = .ok ⟨0, [], 0⟩ ∧
      ∀ st : InMemoryStorage, ∃ s, get_processing_stats st = .ok s := by
  constructor
  · rfl
  · intro st
    unfold get_processing_stats
    have hv : ∃ avg, (if get_all_results st ≠ [] then
        pyDiv (((get_all_results st).map (fun r => (r.original_text.length : ℚ))).sum)
          ((get_all_results st).length : ℚ)
      else .ok 0) = .ok avg := by
      by_cases h : get_all_results st = []
      · rw [if_neg (fun hne => hne h)]
        exact ⟨0, rfl⟩
      · rw [if_pos h]
        have hnz : ¬ ((get_all_results st).length : ℚ) = 0 := by
          simp only [Nat.cast_eq_zero, List.length_eq_zero]
          exact h
        exact ⟨_, by unfold pyDiv; rw [if_neg hnz]⟩
    obtain ⟨avg, havg⟩ := hv
    exact ⟨_, by rw [havg]⟩

/-- C8: `process_text` with a task name outside summarize/entities/sentiment
raises `ValueError` rather than succeeding or silently doing nothing. -/
theorem process_text_unknown_task_error (p : Provider) (b : Backend) (text task : String)
    (h : task ∉ validTasks) :
    process_text p b text task = .error (.valueError ("Unsupported task: " ++ task)) := by
  unfold process_text
  simp only [validTasks, List.mem_cons, List.not_mem_nil, or_false, not_or] at h
  obtain ⟨h1, h2, h3⟩ := h
  rw [if_neg h1, if_neg h2, if_neg h3]

/-- C8 witness: the task name `bogus` is rejected with `ValueError`. -/
theorem process_text_unknown_task_error_witness :
    process_text .openai emptyBackend "hi" "bogus" =
      .error (.valueError ("Unsupported task: " ++ "bogus")) :=
  process_text_unknown_task_error .openai emptyBackend "hi" "bogus" (by decide)

/-- C9: `save_result` followed by `get_result_by_id` at the returned record's
id yields exactly the record `save_result` returned, for every store state and
inputs. -/
theorem save_then_get_by_id (st : InMemoryStorage) (text : String) (pr : Json)
    (tt result_id : String) (now : Int) :
    get_result_by_id (save_result st text pr tt result_id now).2
        (save_result st text pr tt result_id now).1.id =
      some (save_result st text pr tt result_id now).1 := by
  unfold save_result get_result_by_id
  exact lookup_dictInsert st.results result_id _

/-- C10: whenever the provider call raises (an invalid task name included),
the `/process` handler leaves the store exactly as it was and produces no
result: `save_result` runs only after `process_text` returns successfully. -/
theorem failed_request_saves_nothing (st : InMemoryStorage) (p : Provider) (b : Backend)
    (text task result_id : String) (now : Int) (e : PyErr)
    (h : process_text p b text task = .error e) :
    (handleProcess st p b text task result_id now).2 = st ∧
      ∀ r, (handleProcess st p b text task result_id now).1 ≠ .ok r := by
  unfold handleProcess
  split
  · exact ⟨rfl, fun r hr => by cases hr⟩
  · split
    · exact ⟨rfl, fun r hr => by cases hr⟩
    · rw [h]
      exact ⟨rfl, fun r hr => by cases hr⟩

/-- C10 witness: a request with the unknown task `bogus` (on which the
provider raises `ValueError`) leaves the empty store empty and yields no
record. -/
theorem failed_request_saves_nothing_witness :
    (handleProcess ⟨[]⟩ .openai emptyBackend "hi" "bogus" "id1" 0).2 = ⟨[]⟩ ∧
      ∀ r, (handleProcess ⟨[]⟩ .openai emptyBackend "hi" "bogus" "id1" 0).1 ≠ .ok r :=
  failed_request_saves_nothing ⟨[]⟩ .openai emptyBackend "hi" "bogus" "id1" 0
    (.valueError ("Unsupported task: " ++ "bogus")) rfl

/-- C6: `get_recent_activity` returns exactly the stored records strictly
newer than `now - hours`, as a subsequence of the store's insertion order
(no re-sorting); and with `hours = 0` it returns the empty sequence, since no
stored record is stamped strictly after `now`. -/
theorem recent_activity_window (st : InMemoryStorage) (now hours : Int)
    (h : ∀ r ∈ get_all_results st, r.created_at ≤ now) :
    (∀ r, r ∈ get_recent_activity st now hours ↔
        r ∈ get_all_results st ∧ now - hours * 3600 < r.created_at) ∧
      (get_recent_activity st now hours).Sublist (get_all_results st) ∧
      get_recent_activity st now 0 = [] := by
  refine ⟨?_, ?_, ?_⟩
  · intro r
    unfold get_recent_activity
    simp [List.mem_filter]
  · exact List.filter_sublist _
  · unfold get_recent_activity
    rw [List.filter_eq_nil_iff]
    intro r hr
    have hle := h r hr
    simp only [decide_eq_true_eq]
    omega

/-- C6 witness: on a store holding one record stamped at time 5, the window
`hours = 0` at time 10 is empty. -/
theorem recent_activity_window_witness :
    get_recent_activity oneRecordStore 10 0 = [] :=
  (recent_activity_window oneRecordStore 10 0 (by decide)).2.2

/-- C4 counterexample: with the openai variant, a backend reply that decodes
to the JSON array `[]` is not of the expected sentiment shape, yet
`analyze_sentiment` returns it as parsed — no NEUTRAL/0.5/error fallback, and
the returned value has no `sentiment` field at all. -/
theorem analyze_sentiment_fallback_cex :
    expectedSentimentShape (Json.arr []) = false ∧
      analyze_sentiment .openai arrSentimentBackend "good" = .ok (.arr []) ∧
      jsonField (.arr []) "sentiment" = none ∧
      Json.arr [] ≠ sentimentFallback :=
  ⟨rfl, rfl, rfl, by decide⟩

/-- C4 (amended): `analyze_sentiment` falls back to NEUTRAL with score 0.5 and
an error annotation exactly when the openai backend response fails JSON
decoding; a response that decodes successfully is returned as parsed, whatever
its shape. -/
theorem analyze_sentiment_fallback_policy (b : Backend) (text : String) :
    (b.openaiSentiment text = none →
        process_text .openai b text "sentiment" = .ok sentimentFallback) ∧
      (∀ j, b.openaiSentiment text = some j →
        process_text .openai b text "sentiment" = .ok j) := by
  constructor
  · intro h
    unfold process_text analyze_sentiment
    rw [if_neg (by decide), if_neg (by decide), if_pos rfl, h]
  · intro j h
    unfold process_text analyze_sentiment
    rw [if_neg (by decide), if_neg (by decide), if_pos rfl, h]

/-- C4 witness: a decode failure yields the NEUTRAL/0.5/error fallback, and a
reply decoding to `[]` is passed through as parsed. -/
theorem analyze_sentiment_fallback_policy_witness :
    process_text .openai emptyBackend "good" "sentiment" = .ok sentimentFallback ∧
      process_text .openai arrSentimentBackend "good" "sentiment" = .ok (.arr []) :=
  ⟨(analyze_sentiment_fallback_policy emptyBackend "good").1 rfl,
   (analyze_sentiment_fallback_policy arrSentimentBackend "good").2 (.arr []) rfl⟩

/-- C1 counterexample: on the openai variant the parsed backend JSON is
returned under `entities` unchanged — here it carries the confidence value
1/3, which is not rounded to 3 decimal digits; so it is not the case that
every provider variant returns only rounded confidences. -/
theorem extract_entities_unrounded_cex :
    extract_entities .openai unroundedEntitiesBackend "Bob works at Acme" =
        .ok (.obj [("entities", unroundedEntitiesJson)]) ∧
      ¬ (∀ q ∈ jsonConfValues (.obj [("entities", unroundedEntitiesJson)]),
          isRounded3 q) :=
  ⟨rfl, by decide⟩

/-- C1 (amended): the huggingface variant groups the raw NER mentions by
entity type — the bucket of each type lists exactly that type's mentions in
pipeline order — and rounds every confidence to 3 decimal digits; the openai
variant instead returns whatever JSON the backend produced, unchanged under
the `entities` key (or an empty mapping plus an error annotation when the
response fails JSON decoding). -/
theorem extract_entities_grouping_rounding (b : Backend) (text : String) :
    extract_entities .huggingface b text =
        .ok (.obj [("entities", groupedJson (groupEntities (b.hfNer text)))]) ∧
      (∀ t, ((groupEntities (b.hfNer text)).lookup t).getD [] =
        ((b.hfNer text).filter (fun e => e.entity = t)).map
          (fun e => ⟨e.word, round3 e.score⟩)) ∧
      (∀ q ∈ jsonConfValues (.obj [("entities",
          groupedJson (groupEntities (b.hfNer text)))]), isRounded3 q) ∧
      (∀ j, b.openaiEntities text = some j →
        extract_entities .openai b text = .ok (.obj [("entities", j)])) ∧
      (b.openaiEntities text = none →
        extract_entities .openai b text =
          .ok (.obj [("entities", .obj []), ("error", .str entitiesParseError)])) := by
  refine ⟨rfl, lookup_groupEntities _, ?_, ?_, ?_⟩
  · intro q hq
    have hob : jsonConfValues
        (.obj [("entities", groupedJson (groupEntities (b.hfNer text)))]) =
        jsonConfValues (groupedJson (groupEntities (b.hfNer text))) := by
      simp [jsonConfValues, confValuesObj]
    rw [hob, confValues_groupedJson] at hq
    obtain ⟨l, hl, hql⟩ := List.mem_flatten.mp hq
    obtain ⟨p, hp, hpl⟩ := List.mem_map.mp hl
    obtain ⟨m, hm, hmq⟩ := List.mem_map.mp (hpl ▸ hql)
    rw [← hmq]
    exact groupEntities_scores_rounded _ p hp m hm
  · intro j h
    unfold extract_entities
    rw [h]
  · intro h
    unfold extract_entities
    rw [h]

/-- C1 witness: on a concrete NER output the PER bucket lists Bob then Ann
with rounded scores; the openai passthrough and its decode-failure shape at
concrete backends. -/
theorem extract_entities_grouping_rounding_witness :
    ((groupEntities (nerBackend.hfNer "x")).lookup "PER").getD [] =
        [⟨"Bob", round3 (1/3)⟩, ⟨"Ann", round3 (1/2)⟩] ∧
      extract_entities .openai unroundedEntitiesBackend "x" =
        .ok (.obj [("entities", unroundedEntitiesJson)]) ∧
      extract_entities .openai emptyBackend "x" =
        .ok (.obj [("entities", .obj []), ("error", .str entitiesParseError)]) := by
  refine ⟨?_, ?_, ?_⟩
  · rw [(extract_entities_grouping_rounding nerBackend "x").2.1 "PER"]
    decide
  · exact (extract_entities_grouping_rounding unroundedEntitiesBackend "x").2.2.2.1
      unroundedEntitiesJson rfl
  · exact (extract_entities_grouping_rounding emptyBackend "x").2.2.2.2 rfl

/-- C2 counterexample: a sentiment record whose result carries the label `""`
(present but unrecognized) is counted under its own literal bucket `""`, not
under `UNKNOWN`: the distribution holds no `UNKNOWN` count at all. -/
theorem sentiment_distribution_unknown_cex :
    get_sentiment_distribution emptyLabelStore = some [(Json.str "", 1)] ∧
      countIn [(Json.str "", 1)] (Json.str "UNKNOWN") = 0 ∧
      countIn [(Json.str "", 1)] (Json.str "") = 1 :=
  ⟨rfl, by decide, by decide⟩

/-- C2 (amended): `get_sentiment_distribution` counts exactly the records with
`task_type = "sentiment"`, and none is dropped silently: when every such
record's `processed_result` is a dict whose label (or the `UNKNOWN` default
for an absent key) is hashable, the distribution holds, under each bucket,
exactly the number of sentiment records whose label equals it under Python
`==` (so `True` and `1` share a bucket); an absent `sentiment` key resolves to
`UNKNOWN`, while a present value (an empty string or null included) resolves
to itself.  When instead some sentiment record carries an unhashable label
(a list or dict, reachable through the openai sentiment passthrough), the
call raises `TypeError` rather than returning a distribution. -/
theorem sentiment_distribution_buckets (st : InMemoryStorage) :
    ((∀ r ∈ get_all_results st, r.task_type = "sentiment" → hashableBucket r = true) →
      ∃ d, get_sentiment_distribution st = some d ∧
        ∀ k, countIn d k =
          (((get_all_results st).filter (fun r => r.task_type = "sentiment")).filter
            (fun r => bucketMatches r k)).length) ∧
    ((∃ r ∈ get_all_results st, r.task_type = "sentiment" ∧ hashableBucket r = false) →
      get_sentiment_distribution st = none) := by
  constructor
  · intro h
    obtain ⟨d2, hd2, hcount⟩ :=
      sentimentDistAux_spec
        ((get_all_results st).filter (fun r => r.task_type = "sentiment")) []
        (fun r hr => h r (List.mem_of_mem_filter hr)
          (by simpa using (List.mem_filter.mp hr).2))
    refine ⟨d2, hd2, fun k => ?_⟩
    rw [hcount k]
    simp [countIn]
  · intro h
    obtain ⟨r, hr, htask, hbad⟩ := h
    unfold get_sentiment_distribution
    exact sentimentDistAux_none _ []
      ⟨r, List.mem_filter.mpr ⟨hr, by simpa using htask⟩, hbad⟩

/-- C2 witness: on a store with one keyless sentiment record and one POSITIVE
record the distribution exists and counts each bucket exactly; on a store
whose sentiment label decoded to a JSON list the call raises. -/
theorem sentiment_distribution_buckets_witness :
    (∃ d, get_sentiment_distribution mixedSentimentStore = some d ∧
      ∀ k, countIn d k =
        (((get_all_results mixedSentimentStore).filter
            (fun r => r.task_type = "sentiment")).filter
          (fun r => bucketMatches r k)).length) ∧
      get_sentiment_distribution unhashableLabelStore = none :=
  ⟨(sentiment_distribution_buckets mixedSentimentStore).1 (by decide),
   (sentiment_distribution_buckets unhashableLabelStore).2 (by decide)⟩
